import Mathlib

/-!
Verification of GrabNeteaseMusic.py (class NeteaseGrabber and the album
processing loop) against its natural-language specification.

The Python source is shallowly embedded: pure string/list manipulation is
translated directly; effectful code (HTTP requests, filesystem access) is
modelled by passing the observed environment (responses, filesystem state)
explicitly and recording the performed effects.
-/

namespace GrabNetease

/-! ## Python string primitives over character lists

Python's `str` operations are embedded over `List Char` (with `String.mk` /
`String.data` at the boundaries) so that everything reduces by structural
recursion. -/

/-- Python `s.split(sep)` for a one-character separator: keeps empty
segments, and `''.split(sep) == ['']`. -/
def splitChar (sep : Char) : List Char → List (List Char)
  | [] => [[]]
  | c :: rest =>
    match splitChar sep rest with
    | [] => [[]]
    | cur :: others => if c = sep then [] :: cur :: others else (c :: cur) :: others

/-- Python `s.strip(chars)` generalised: drop characters satisfying `p`
from both ends. -/
def stripWith (p : Char → Bool) (l : List Char) : List Char :=
  ((l.dropWhile p).reverse.dropWhile p).reverse

/-! ## Cookie parsing (`NeteaseGrabber._parse_cookies`)

Python dictionaries preserve insertion order and update in place, so the
cookie map is embedded as an association list with Python-dict insertion
semantics (`dictInsert`). -/

/-- The metadata keys skipped by `_parse_cookies`
(`if name in ('Path', 'Max-Age', 'Expires', 'HTTPOnly', 'Secure')`). -/
def metadataKeys : List String := ["Path", "Max-Age", "Expires", "HTTPOnly", "Secure"]

/-- Python `d[k] = v` on an ordered dict represented as an association list:
an existing key keeps its position and gets the new value, a new key is
appended at the end. -/
def dictInsert (d : List (String × String)) (k v : String) : List (String × String) :=
  if d.any (fun p => p.1 = k) then d.map (fun p => if p.1 = k then (k, v) else p)
  else d ++ [(k, v)]

/-- One loop iteration of `_parse_cookies`, up to the metadata check:
`part.strip()`, skip when empty or without `=`, else `part.split('=', 1)`.
Returns the name/value pair, or `none` when the part is skipped. -/
def splitKV (part : List Char) : Option (String × String) :=
  let p := stripWith Char.isWhitespace part
  if p = [] then none
  else
    let name := p.takeWhile (fun c => c ≠ '=')
    let rest := p.dropWhile (fun c => c ≠ '=')
    match rest with
    | [] => none
    | _ :: value => some (String.mk name, String.mk value)

/-- One loop iteration of `_parse_cookies`: skip empty/`=`‑less parts and
the well-known metadata keys, otherwise store `name = value`. -/
def cookieStep (d : List (String × String)) (part : List Char) : List (String × String) :=
  match splitKV part with
  | none => d
  | some nv => if nv.1 ∈ metadataKeys then d else dictInsert d nv.1 nv.2

/-- `NeteaseGrabber._parse_cookies`: split on `;`, strip each part, keep
`name=value` pairs whose name is not cookie metadata. -/
def parse_cookies (cookie_string : String) : List (String × String) :=
  if cookie_string = "" then []
  else (splitChar ';' cookie_string.data).foldl cookieStep []

/-- `_parse_cookies` as called from `login`: the argument is
`data.get('cookie')`, which may be `None`; `if not cookie_string` returns
the empty dict in that case. -/
def parse_cookies_opt : Option String → List (String × String)
  | none => []
  | some s => parse_cookies s

/-- The same parse without the metadata-key skip (used to state that
`_parse_cookies` keeps exactly the non-metadata pairs). -/
def cookieStepAll (d : List (String × String)) (part : List Char) : List (String × String) :=
  match splitKV part with
  | none => d
  | some nv => dictInsert d nv.1 nv.2

/-- All `name=value` pairs of the cookie string, metadata included. -/
def parseCookiesAll (cookie_string : String) : List (String × String) :=
  if cookie_string = "" then []
  else (splitChar ';' cookie_string.data).foldl cookieStepAll []

/-- The pairs `_parse_cookies` keeps: those whose name is not a metadata
key (case-sensitive comparison). -/
def nonMeta (p : String × String) : Bool := decide (p.1 ∉ metadataKeys)

/-! ## QR login loop (`NeteaseGrabber.login`, step 4)

`_check_qr_login_status` returns `None` on any HTTP/exception failure and
otherwise a record with the response's `code` and `cookie` fields (each
possibly absent).  The polling loop is embedded as recursion over the
finite sequence of poll results; the instrumentation records every
argument passed to `_parse_cookies` and every transition to the
authenticated state. -/

/-- The record returned by `_check_qr_login_status` on HTTP 200:
`{'code': data.get('code'), 'cookie': data.get('cookie')}` (the `message`
field is never read by `login`). -/
structure QRStatus where
  code : Option Int
  cookie : Option String
deriving DecidableEq

/-- Outcome of running the `while True` polling loop of `login` on a finite
prefix of poll results: `success`/`failure` are the two `return`s;
`pending` means the prefix was exhausted with the loop still polling. -/
inductive LoginResult
  | success
  | failure
  | pending
deriving DecidableEq

/-- Instrumented run of the polling loop: final result, the arguments of
every `_parse_cookies` invocation, the number of transitions to the
authenticated state, and the cookie map stored in `self.cookies`. -/
structure LoginTrace where
  result : LoginResult
  cookieParses : List (Option String)
  authTransitions : Nat
  finalCookies : Option (List (String × String))
deriving DecidableEq

/-- The `while True` loop of `NeteaseGrabber.login` (lines 256–275), run on
a finite list of poll results (`none` = `_check_qr_login_status` returned
`None`).  `code == 803` parses the cookie and returns `True`; `code == 800`
returns `False`; `802` and `801` only print (or do nothing) and poll again;
any other or missing code also falls through to the next poll. -/
def loginRun : List (Option QRStatus) → LoginTrace
  | [] => ⟨LoginResult.pending, [], 0, none⟩
  | none :: _ => ⟨LoginResult.failure, [], 0, none⟩
  | some s :: rest =>
    if s.code = some 803 then
      ⟨LoginResult.success, [s.cookie], 1, some (parse_cookies_opt s.cookie)⟩
    else if s.code = some 800 then
      ⟨LoginResult.failure, [], 0, none⟩
    else
      loginRun rest

/-! ## Login status probe (`NeteaseGrabber.check_login_status`) -/

/-- Observable outcome of the `/login/status` probe: either some exception
was raised (connection error, invalid JSON, ...) or a response arrived with
an HTTP status and the value of `data.account.type` (absent keys give
`none`, matching the chained `.get` with `{}` defaults). -/
inductive LoginProbe
  | raised
  | resp (status : Int) (accountType : Option Int)
deriving DecidableEq

/-- `NeteaseGrabber.check_login_status`: `False` on non-200 HTTP status,
`True` exactly when `account.type == 1`, `False` when any exception is
caught. -/
def check_login_status : LoginProbe → Bool
  | LoginProbe.raised => false
  | LoginProbe.resp status ty => if status ≠ 200 then false else decide (ty = some 1)

/-! ## Album parsing: per-song quality flags (`NeteaseGrabber.get_album_info`) -/

/-- `NeteaseAudioQuality` enumeration of the source. -/
inductive NeteaseAudioQuality
  | standard
  | higher
  | exhigh
  | lossless
  | hires
deriving DecidableEq

/-- `NeteaseSong` value object (field name `avalibe_qualities` kept as in
the source). -/
structure NeteaseSong where
  song_id : Option Int
  song_name : String
  cd_number : Option String
  track_number : Option Int
  avalibe_qualities : List NeteaseAudioQuality
deriving DecidableEq

/-- `NeteaseSong.add_quality`: appends to `avalibe_qualities`. -/
def add_quality (song : NeteaseSong) (q : NeteaseAudioQuality) : NeteaseSong :=
  ⟨song.song_id, song.song_name, song.cd_number, song.track_number,
    song.avalibe_qualities ++ [q]⟩

/-- The fields of one raw song record read by `get_album_info`: identity
fields plus the five quality flags (`song_data.get('hr')` etc., modelled by
their truthiness). -/
structure RawSong where
  id : Option Int
  name : String
  cd : Option String
  no : Option Int
  hr : Bool
  sq : Bool
  h : Bool
  m : Bool
  l : Bool
deriving DecidableEq

/-- The per-song body of the `for song_data in songs_data` loop of
`get_album_info` (lines 485–506): build the song, then append a quality for
each true flag, in the source's order hr/sq/h/m/l. -/
def parse_song (sd : RawSong) : NeteaseSong :=
  let song : NeteaseSong := ⟨sd.id, sd.name, sd.cd, sd.no, []⟩
  let song := if sd.hr then add_quality song NeteaseAudioQuality.hires else song
  let song := if sd.sq then add_quality song NeteaseAudioQuality.lossless else song
  let song := if sd.h then add_quality song NeteaseAudioQuality.exhigh else song
  let song := if sd.m then add_quality song NeteaseAudioQuality.higher else song
  let song := if sd.l then add_quality song NeteaseAudioQuality.standard else song
  song

/-- The fixed tier order in which `get_album_info` tests the flags. -/
def qualityOrder : List NeteaseAudioQuality :=
  [NeteaseAudioQuality.hires, NeteaseAudioQuality.lossless, NeteaseAudioQuality.exhigh,
   NeteaseAudioQuality.higher, NeteaseAudioQuality.standard]

/-- The raw flag of a record corresponding to a given quality tier. -/
def flagFor (sd : RawSong) : NeteaseAudioQuality → Bool
  | NeteaseAudioQuality.hires => sd.hr
  | NeteaseAudioQuality.lossless => sd.sq
  | NeteaseAudioQuality.exhigh => sd.h
  | NeteaseAudioQuality.higher => sd.m
  | NeteaseAudioQuality.standard => sd.l

/-! ## Filename sanitization (`NeteaseGrabber._sanitize_filename`) -/

/-- The `invalid_chars` list of `_sanitize_filename`. -/
def invalidChars : List Char := ['<', '>', ':', '"', '/', '\\', '|', '?', '*']

/-- Python `filename.replace(char, '_')` for a single character. -/
def replaceChar (l : List Char) (c : Char) : List Char :=
  l.map (fun x => if x = c then '_' else x)

/-- The `for char in invalid_chars: filename = filename.replace(char, '_')`
loop of `_sanitize_filename`. -/
def sanitizeReplace (l : List Char) : List Char :=
  invalidChars.foldl replaceChar l

/-- `NeteaseGrabber._sanitize_filename` over the character list: replace
each invalid character, then `.strip()` (whitespace), then `.strip('.')`,
then substitute `"unnamed"` for an empty result. -/
def sanitizeChars (l : List Char) : List Char :=
  let replaced := sanitizeReplace l
  let trimmed := stripWith Char.isWhitespace replaced
  let dotless := stripWith (fun c => c = '.') trimmed
  if dotless = [] then "unnamed".data else dotless

/-- `NeteaseGrabber._sanitize_filename`. -/
def sanitize_filename (s : String) : String :=
  String.mk (sanitizeChars s.data)

/-! ## Archive path (`NeteaseGrabber.get_archive_path`)

`os.getcwd()` is passed in explicitly as `cwd`; `os.path.join` is the
POSIX join; `datetime.fromtimestamp` is modelled at UTC by the proleptic
Gregorian calendar, with the year restricted to `datetime`'s supported
range 1–9999 (outside it `fromtimestamp` raises and the `except` branch
yields `"Unknown"`). -/

/-- `NeteaseArtist` value object. -/
structure NeteaseArtist where
  artist_id : Option Int
  artist_name : String
deriving DecidableEq

/-- `NeteaseAlbum` value object (the `songs` list is irrelevant to the
claims about paths and is omitted here; `publish_time` is a millisecond
Unix timestamp, absent when the catalog did not provide one). -/
structure NeteaseAlbum where
  album_id : Option Int
  album_name : String
  publish_time : Option Int
  publish_company : Option String
  tracks_count : Option Int
  album_cover_url : Option String
  artist : NeteaseArtist
deriving DecidableEq

/-- POSIX `os.path.join(a, b)`: `b` if `b` is absolute, no extra
separator when `a` is empty or already ends in one. -/
def path_join (a b : String) : String :=
  if b.data.head? = some '/' then b
  else if a.data = [] ∨ a.data.getLast? = some '/' then a ++ b
  else a ++ "/" ++ b

/-- Civil (proleptic Gregorian) year of a day count relative to
1970-01-01, Howard Hinnant's `civil_from_days` restricted to the year. -/
def civilYearFromDays (z : Int) : Int :=
  let zs := z + 719468
  let era := Int.fdiv zs 146097
  let doe := (zs - era * 146097).toNat
  let yoe := (doe - doe / 1460 + doe / 36524 - doe / 146096) / 365
  let y := (yoe : Int) + era * 400
  let doy := doe - (365 * yoe + yoe / 4 - yoe / 100)
  let mp := (5 * doy + 2) / 153
  let m := if mp < 10 then mp + 3 else mp - 9
  if m ≤ 2 then y + 1 else y

/-- `datetime.fromtimestamp(t / 1000).year` for a millisecond timestamp
`t`, at UTC. -/
def yearFromMillis (t : Int) : Int :=
  civilYearFromDays (Int.fdiv (Int.fdiv t 1000) 86400)

/-- The `album_year` computation of `get_archive_path`: `"Unknown"` when
`publish_time` is absent or falsy (`0`), the civil year when
`fromtimestamp` succeeds (year in 1–9999), `"Unknown"` when it raises. -/
def album_year (album : NeteaseAlbum) : String :=
  match album.publish_time with
  | none => "Unknown"
  | some t =>
    if t = 0 then "Unknown"
    else
      let y := yearFromMillis t
      if 1 ≤ y ∧ y ≤ 9999 then toString y else "Unknown"

/-- Python `s.zfill(width)`: left-pad with `'0'`, after a leading sign. -/
def zfill (s : String) (width : Nat) : String :=
  if s.length ≥ width then s
  else if s.data.head? = some '-' ∨ s.data.head? = some '+' then
    String.mk (s.data.take 1 ++ List.replicate (width - s.length) '0' ++ s.data.drop 1)
  else
    String.mk (List.replicate (width - s.length) '0' ++ s.data)

/-- `song.cd_number if song.cd_number else "01"` (Python falsiness: `None`
or the empty string). -/
def cd_component (song : NeteaseSong) : String :=
  match song.cd_number with
  | none => "01"
  | some c => if c = "" then "01" else c

/-- `str(song.track_number).zfill(2) if song.track_number else "00"`
(Python falsiness: `None` or `0`). -/
def track_component (song : NeteaseSong) : String :=
  match song.track_number with
  | none => "00"
  | some n => if n = 0 then "00" else zfill (toString n) 2

/-- `os.path.join(os.getcwd(), "Download", "MusicLibrary")`. -/
def music_base_dir (cwd : String) : String :=
  path_join (path_join cwd "Download") "MusicLibrary"

/-- `NeteaseGrabber.get_archive_path(song, album, ext)`, with the process
working directory passed in as `cwd`. -/
def get_archive_path (cwd : String) (song : NeteaseSong) (album : NeteaseAlbum)
    (ext : String) : String :=
  let artist_name := sanitize_filename album.artist.artist_name
  let album_name := sanitize_filename album.album_name
  let song_name := sanitize_filename song.song_name
  let artist_dir := path_join (music_base_dir cwd) artist_name
  let album_dir := path_join artist_dir (album_year album ++ "-" ++ album_name)
  let filename := cd_component song ++ "-" ++ track_component song ++ "-" ++ song_name ++ ext
  path_join album_dir filename

/-! ## Filesystem model and archival (`NeteaseGrabber.archive_song_file`)

The filesystem is a finite map from paths to file contents plus a set of
directories.  `shutil.copy2` copies the source's content to the
destination; `os.makedirs(..., exist_ok=True)` records the directory and
its ancestors. -/

/-- POSIX `os.path.dirname(p)`: everything before the last `/`, with
trailing slashes stripped unless the head is all slashes. -/
def dirname (p : String) : String :=
  let headChars := ((p.data.reverse.dropWhile (fun c => c ≠ '/')).reverse)
  if headChars = [] then ""
  else if headChars.all (fun c => c = '/') then String.mk headChars
  else String.mk ((headChars.reverse.dropWhile (fun c => c = '/')).reverse)

/-- The chain of directories `os.makedirs` creates for `p`: the directory
itself and its ancestors via `dirname` (fuel-bounded; `makedirs` stops
once the path no longer shrinks). -/
def ancestorChain : Nat → String → List String
  | 0, _ => []
  | fuel + 1, p =>
    if p = "" then []
    else if dirname p = p then [p]
    else p :: ancestorChain fuel (dirname p)

/-- Filesystem state: file contents by path, and the set of directories. -/
structure NeteaseFS where
  files : List (String × String)
  dirs : List String
deriving DecidableEq

/-- Look a path up in a file table (first match wins, as in a dict). -/
def lookupFiles : List (String × String) → String → Option String
  | [], _ => none
  | q :: rest, p => if q.1 = p then some q.2 else lookupFiles rest p

/-- Look a file up in the filesystem. -/
def lookupFile (fs : NeteaseFS) (p : String) : Option String :=
  lookupFiles fs.files p

/-- Write a file: overwrite an existing path in place, else append. -/
def setFile (files : List (String × String)) (p c : String) : List (String × String) :=
  if files.any (fun q => q.1 = p) then files.map (fun q => if q.1 = p then (p, c) else q)
  else files ++ [(p, c)]

/-- `os.makedirs(d, exist_ok=True)`: the directory and all its ancestors
exist afterwards; files are untouched. -/
def makedirs (fs : NeteaseFS) (d : String) : NeteaseFS :=
  ⟨fs.files, ancestorChain (d.length + 1) d ++ fs.dirs⟩

/-- `shutil.copy2(src, dst)`: copy the source's content to the
destination (the source keeps its content). -/
def copy2 (fs : NeteaseFS) (src dst : String) : NeteaseFS :=
  match lookupFile fs src with
  | none => fs
  | some c => ⟨setFile fs.files dst c, fs.dirs⟩

/-- `NeteaseGrabber.archive_song_file(song_path, ext, song, album)`:
return `None` when the source file does not exist, else create the
destination's directory levels, copy the file there with `shutil.copy2`,
and return the destination path. -/
def archive_song_file (cwd : String) (fs : NeteaseFS) (song_path : String) (ext : String)
    (song : NeteaseSong) (album : NeteaseAlbum) : NeteaseFS × Option String :=
  if lookupFile fs song_path = none then (fs, none)
  else
    (copy2 (makedirs fs (dirname (get_archive_path cwd song album ext))) song_path
      (get_archive_path cwd song album ext),
     some (get_archive_path cwd song album ext))

/-! ## Download manager (`NeteaseGrabber.download_song_file`)

The HTTP layer is modelled by passing in the observed response (`none` =
a raised exception); the function returns its result together with the
list of effects it performed, in order. -/

/-- `NeteaseSongDownloadInfo` value object. -/
structure NeteaseSongDownloadInfo where
  song_id : Int
  ext_name : String
  url : Option String
deriving DecidableEq

/-- Python falsiness of an optional string (`None` or `''`). -/
def optStrFalsy : Option String → Bool
  | none => true
  | some s => s = ""

/-- Effects `download_song_file` can perform, in order of occurrence. -/
inductive DLEffect
  | mkdir (d : String)
  | httpGet (url : String)
  | writeFile (p : String)
deriving DecidableEq

/-- Observed HTTP response for a streaming download: status code and body. -/
structure DLResponse where
  status : Int
  content : String
deriving DecidableEq

/-- `NeteaseGrabber.download_song_file(download_info)`: `None` with no
effect when the info or its URL is falsy; otherwise create the staging
directory, issue the request, and on HTTP 200 stream the body to
`Download/Songs/<songId><ext>`. -/
def download_song_file (cwd : String) (info : Option NeteaseSongDownloadInfo)
    (resp : Option DLResponse) : Option String × List DLEffect :=
  match info with
  | none => (none, [])
  | some di =>
    if optStrFalsy di.url then (none, [])
    else
      let download_dir := path_join (path_join cwd "Download") "Songs"
      let url := match di.url with | none => "" | some u => u
      let file_path := path_join download_dir (toString di.song_id ++ di.ext_name)
      match resp with
      | none => (none, [DLEffect.mkdir download_dir, DLEffect.httpGet url])
      | some r =>
        if r.status ≠ 200 then (none, [DLEffect.mkdir download_dir, DLEffect.httpGet url])
        else (some file_path,
          [DLEffect.mkdir download_dir, DLEffect.httpGet url, DLEffect.writeFile file_path])

/-! ## The album processing loop (`__main__`, lines 1084–1124)

Each iteration of `for i, song in enumerate(album.songs)` is driven by
what the environment answers at each step; the embedding records which
pipeline stages run and the increment of `success_count`. -/

/-- What the environment answers during one track iteration. -/
structure TrackEnv where
  download_info : Option NeteaseSongDownloadInfo
  archive_file_exists : Bool
  download_path : Option String
  tag_ok : Bool
  archive_path : Option String
deriving DecidableEq

/-- The pipeline stages a track iteration can invoke, in order. -/
inductive TrackAction
  | getUrl
  | checkExists
  | download
  | tag
  | archive
deriving DecidableEq

/-- One iteration of the album loop: get the URL (skip when it is falsy),
check the archive path (skip and count as success when the file exists),
download (skip on failure), tag, archive (count as success when archiving
returns a path). -/
def process_track (env : TrackEnv) : List TrackAction × Nat :=
  match env.download_info with
  | none => ([TrackAction.getUrl], 0)
  | some di =>
    if optStrFalsy di.url then ([TrackAction.getUrl], 0)
    else if env.archive_file_exists then ([TrackAction.getUrl, TrackAction.checkExists], 1)
    else
      match env.download_path with
      | none => ([TrackAction.getUrl, TrackAction.checkExists, TrackAction.download], 0)
      | some _ =>
        match env.archive_path with
        | some _ =>
          ([TrackAction.getUrl, TrackAction.checkExists, TrackAction.download,
            TrackAction.tag, TrackAction.archive], 1)
        | none =>
          ([TrackAction.getUrl, TrackAction.checkExists, TrackAction.download,
            TrackAction.tag, TrackAction.archive], 0)

/-- The `success_count` reported by the album loop's summary. -/
def process_album (envs : List TrackEnv) : Nat :=
  (envs.map (fun e => (process_track e).2)).sum

/-! ## Concrete fixtures used by witness theorems -/

/-- A concrete song. -/
def sampleSong : NeteaseSong := ⟨some 7, "Ti tle", some "01", some 5, []⟩

/-- A concrete album (publish time 2001-09-09T01:46:40Z in milliseconds). -/
def sampleAlbum : NeteaseAlbum :=
  ⟨some 3, "Alb", some 1000000000000, none, some 10, none, ⟨some 2, "Artist"⟩⟩

/-- A concrete filesystem holding one staged song file. -/
def sampleFS : NeteaseFS := ⟨[("/tmp/song.mp3", "DATA")], []⟩

/-- A song whose catalog disc number begins with a path separator: the
source passes `cd_number` into the final filename without sanitizing it. -/
def escapeSong : NeteaseSong := ⟨some 7, "T", some "/x", some 5, []⟩

/-! ## Helper lemmas: the cookie map keeps exactly the non-metadata pairs -/

theorem filter_map_update_meta (n v : String) (hn : n ∈ metadataKeys)
    (d : List (String × String)) :
    (d.map (fun p => if p.1 = n then (n, v) else p)).filter nonMeta = d.filter nonMeta := by
  induction d with
  | nil => rfl
  | cons a rest ih =>
    by_cases ha : a.1 = n
    · have hpa : nonMeta a = false := by simp [nonMeta, ha, hn]
      have hpnv : nonMeta (n, v) = false := by simp [nonMeta, hn]
      simp [List.filter_cons, ha, hpa, hpnv, ih]
    · simp [List.filter_cons, ha, ih]

theorem filter_dictInsert_meta (n v : String) (hn : n ∈ metadataKeys)
    (d : List (String × String)) :
    (dictInsert d n v).filter nonMeta = d.filter nonMeta := by
  unfold dictInsert
  by_cases hany : d.any (fun p => p.1 = n)
  · simp only [hany, if_true]
    exact filter_map_update_meta n v hn d
  · have hpnv : nonMeta (n, v) = false := by simp [nonMeta, hn]
    simp [hany, List.filter_append, List.filter_cons, hpnv]

theorem filter_map_update_nonmeta (n v : String) (hn : n ∉ metadataKeys)
    (d : List (String × String)) :
    (d.map (fun p => if p.1 = n then (n, v) else p)).filter nonMeta =
      (d.filter nonMeta).map (fun p => if p.1 = n then (n, v) else p) := by
  induction d with
  | nil => rfl
  | cons a rest ih =>
    by_cases ha : a.1 = n
    · have hpa : nonMeta a = true := by simp [nonMeta, ha, hn]
      have hpnv : nonMeta (n, v) = true := by simp [nonMeta, hn]
      simp [List.filter_cons, ha, hpa, hpnv, ih]
    · by_cases hpa : nonMeta a = true
      · simp [List.filter_cons, ha, hpa, ih]
      · simp at hpa
        simp [List.filter_cons, ha, hpa, ih]

theorem filter_dictInsert_nonmeta (n v : String) (hn : n ∉ metadataKeys)
    (d : List (String × String)) :
    dictInsert (d.filter nonMeta) n v = (dictInsert d n v).filter nonMeta := by
  unfold dictInsert
  by_cases hany : d.any (fun p => p.1 = n)
  · have hany2 : (d.filter nonMeta).any (fun p => p.1 = n) = true := by
      simp only [List.any_eq_true] at hany ⊢
      obtain ⟨q, hq, hqn⟩ := hany
      refine ⟨q, List.mem_filter.mpr ⟨hq, ?_⟩, hqn⟩
      simp at hqn
      simp [nonMeta, hqn, hn]
    simp only [hany, hany2, if_true]
    exact (filter_map_update_nonmeta n v hn d).symm
  · have hanyf : d.any (fun p => p.1 = n) = false := Bool.eq_false_iff.mpr hany
    have hany2 : (d.filter nonMeta).any (fun p => p.1 = n) = false := by
      rw [List.any_eq_false] at hanyf ⊢
      intro q hq
      exact hanyf q (List.mem_filter.mp hq).1
    have hpnv : nonMeta (n, v) = true := by simp [nonMeta, hn]
    simp [hanyf, hany2, List.filter_append, List.filter_cons, hpnv]

theorem foldl_cookie_filter (parts : List (List Char)) :
    ∀ d : List (String × String),
      parts.foldl cookieStep (d.filter nonMeta) = (parts.foldl cookieStepAll d).filter nonMeta := by
  induction parts with
  | nil => intro d; rfl
  | cons part rest ih =>
    intro d
    have hstep : cookieStep (d.filter nonMeta) part = (cookieStepAll d part).filter nonMeta := by
      unfold cookieStep cookieStepAll
      cases hkv : splitKV part with
      | none => rfl
      | some nv =>
        dsimp only
        by_cases hm : nv.1 ∈ metadataKeys
        · rw [if_pos hm]
          exact (filter_dictInsert_meta nv.1 nv.2 hm d).symm
        · rw [if_neg hm]
          exact filter_dictInsert_nonmeta nv.1 nv.2 hm d
    rw [List.foldl_cons, List.foldl_cons, hstep, ih]

/-! ## Helper lemmas: sanitization -/

theorem foldl_replaceChar (cs : List Char) : ∀ l : List Char,
    cs.foldl replaceChar l =
      l.map (fun x => cs.foldl (fun y c => if y = c then '_' else y) x) := by
  induction cs with
  | nil =>
    intro l
    simp
  | cons c cs ih =>
    intro l
    rw [List.foldl_cons, ih (replaceChar l c)]
    unfold replaceChar
    rw [List.map_map]
    rfl

theorem foldl_step_invalid (x : Char) :
    invalidChars.foldl (fun y c => if y = c then '_' else y) x =
      if x ∈ invalidChars then '_' else x := by
  by_cases h1 : x = '<'
  · subst h1; decide
  by_cases h2 : x = '>'
  · subst h2; decide
  by_cases h3 : x = ':'
  · subst h3; decide
  by_cases h4 : x = '"'
  · subst h4; decide
  by_cases h5 : x = '/'
  · subst h5; decide
  by_cases h6 : x = '\\'
  · subst h6; decide
  by_cases h7 : x = '|'
  · subst h7; decide
  by_cases h8 : x = '?'
  · subst h8; decide
  by_cases h9 : x = '*'
  · subst h9; decide
  have hx : x ∉ invalidChars := by
    simp [invalidChars, h1, h2, h3, h4, h5, h6, h7, h8, h9]
  rw [if_neg hx]
  simp [invalidChars, List.foldl, h1, h2, h3, h4, h5, h6, h7, h8, h9]

theorem sanitizeReplace_eq_map (l : List Char) :
    sanitizeReplace l = l.map (fun x => if x ∈ invalidChars then '_' else x) := by
  unfold sanitizeReplace
  rw [foldl_replaceChar]
  simp only [foldl_step_invalid]

theorem mem_sanitizeReplace_not_invalid (l : List Char) (c : Char)
    (h : c ∈ sanitizeReplace l) : c ∉ invalidChars := by
  rw [sanitizeReplace_eq_map, List.mem_map] at h
  obtain ⟨x, _, hx⟩ := h
  by_cases hm : x ∈ invalidChars
  · rw [if_pos hm] at hx
    subst hx
    decide
  · rw [if_neg hm] at hx
    subst hx
    exact hm

theorem mem_stripWith (p : Char → Bool) (l : List Char) (c : Char)
    (h : c ∈ stripWith p l) : c ∈ l := by
  unfold stripWith at h
  rw [List.mem_reverse] at h
  have h1 := (List.dropWhile_sublist p).subset h
  rw [List.mem_reverse] at h1
  exact (List.dropWhile_sublist p).subset h1

theorem head?_dropWhile_false (p : Char → Bool) : ∀ (l : List Char) (a : Char),
    (l.dropWhile p).head? = some a → p a = false := by
  intro l
  induction l with
  | nil =>
    intro a h
    simp at h
  | cons c rest ih =>
    intro a h
    by_cases hc : p c
    · rw [List.dropWhile_cons, if_pos hc] at h
      exact ih a h
    · rw [List.dropWhile_cons, if_neg hc] at h
      simp at h
      subst h
      exact Bool.eq_false_iff.mpr hc

theorem stripWith_getLast_false (p : Char → Bool) (l : List Char) (a : Char)
    (h : (stripWith p l).getLast? = some a) : p a = false := by
  unfold stripWith at h
  rw [List.getLast?_reverse] at h
  exact head?_dropWhile_false p (l.dropWhile p).reverse a h

theorem stripWith_head_false (p : Char → Bool) (l : List Char) (a : Char)
    (h : (stripWith p l).head? = some a) : p a = false := by
  apply head?_dropWhile_false p l a
  have hdecomp : l.dropWhile p =
      stripWith p l ++ ((l.dropWhile p).reverse.takeWhile p).reverse := by
    unfold stripWith
    rw [← List.reverse_append, List.takeWhile_append_dropWhile, List.reverse_reverse]
  rw [hdecomp]
  cases hsw : stripWith p l with
  | nil =>
    rw [hsw] at h
    simp at h
  | cons b t =>
    rw [hsw] at h
    simp at h
    subst h
    rfl

theorem mem_sanitizeChars_not_invalid (l : List Char) (c : Char)
    (h : c ∈ sanitizeChars l) : c ∉ invalidChars := by
  simp only [sanitizeChars] at h
  by_cases hd : stripWith (fun c => c = '.') (stripWith Char.isWhitespace (sanitizeReplace l)) = []
  · rw [if_pos hd] at h
    simp only [List.mem_cons, List.not_mem_nil, or_false] at h
    rcases h with h | h | h | h | h | h | h <;> subst h <;> decide
  · rw [if_neg hd] at h
    exact mem_sanitizeReplace_not_invalid l c
      (mem_stripWith Char.isWhitespace (sanitizeReplace l)
        c (mem_stripWith (fun c => c = '.') (stripWith Char.isWhitespace (sanitizeReplace l)) c h))

theorem sanitizeChars_ne_nil (l : List Char) : sanitizeChars l ≠ [] := by
  simp only [sanitizeChars]
  by_cases hd : stripWith (fun c => c = '.') (stripWith Char.isWhitespace (sanitizeReplace l)) = []
  · rw [if_pos hd]
    decide
  · rw [if_neg hd]
    exact hd

theorem sanitizeChars_head_ne_dot (l : List Char) (a : Char)
    (h : (sanitizeChars l).head? = some a) : a ≠ '.' := by
  simp only [sanitizeChars] at h
  by_cases hd : stripWith (fun c => c = '.') (stripWith Char.isWhitespace (sanitizeReplace l)) = []
  · rw [if_pos hd] at h
    simp at h
    subst h
    decide
  · rw [if_neg hd] at h
    have := stripWith_head_false (fun c => c = '.')
      (stripWith Char.isWhitespace (sanitizeReplace l)) a h
    simpa using this

theorem sanitizeChars_getLast_ne_dot (l : List Char) (a : Char)
    (h : (sanitizeChars l).getLast? = some a) : a ≠ '.' := by
  simp only [sanitizeChars] at h
  by_cases hd : stripWith (fun c => c = '.') (stripWith Char.isWhitespace (sanitizeReplace l)) = []
  · rw [if_pos hd] at h
    simp at h
    subst h
    decide
  · rw [if_neg hd] at h
    have := stripWith_getLast_false (fun c => c = '.')
      (stripWith Char.isWhitespace (sanitizeReplace l)) a h
    simpa using this

theorem sanitize_filename_data (s : String) :
    (sanitize_filename s).data = sanitizeChars s.data := by
  simp [sanitize_filename]

theorem sanitize_filename_ne_empty (s : String) : (sanitize_filename s).data ≠ [] := by
  rw [sanitize_filename_data]
  exact sanitizeChars_ne_nil s.data

theorem sanitize_filename_head_ne_slash (s : String) :
    (sanitize_filename s).data.head? ≠ some '/' := by
  intro h
  rw [sanitize_filename_data] at h
  have hm := List.mem_of_mem_head? h
  exact mem_sanitizeChars_not_invalid s.data '/' hm (by decide)

theorem sanitize_filename_getLast_ne_slash (s : String) :
    (sanitize_filename s).data.getLast? ≠ some '/' := by
  intro h
  rw [sanitize_filename_data] at h
  rw [← List.head?_reverse] at h
  have hm := List.mem_of_mem_head? h
  rw [List.mem_reverse] at hm
  exact mem_sanitizeChars_not_invalid s.data '/' hm (by decide)

/-! ## Helper lemmas: the filesystem model -/

theorem lookup_map_update (files : List (String × String)) (p c : String) :
    lookupFiles (files.map (fun q => if q.1 = p then (p, c) else q)) p =
      if files.any (fun q => q.1 = p) then some c else none := by
  induction files with
  | nil => rfl
  | cons a rest ih =>
    by_cases ha : a.1 = p
    · simp [lookupFiles, ha, List.any_cons]
    · have hd : decide (a.1 = p) = false := by simp [ha]
      simp only [lookupFiles, List.map_cons, List.any_cons]
      rw [if_neg ?hneg, ih]
      case hneg =>
        simp [ha]
      simp only [hd, Bool.false_or]

theorem lookup_map_update_other (files : List (String × String)) (p c q : String)
    (hq : q ≠ p) :
    lookupFiles (files.map (fun r => if r.1 = p then (p, c) else r)) q =
      lookupFiles files q := by
  induction files with
  | nil => rfl
  | cons a rest ih =>
    by_cases ha : a.1 = p
    · simp [lookupFiles, ha, Ne.symm hq, ih]
    · simp [lookupFiles, ha, ih]

theorem lookupFiles_append (l1 l2 : List (String × String)) (p : String) :
    lookupFiles (l1 ++ l2) p =
      match lookupFiles l1 p with
      | none => lookupFiles l2 p
      | some v => some v := by
  induction l1 with
  | nil => rfl
  | cons a rest ih =>
    by_cases ha : a.1 = p
    · simp [lookupFiles, ha]
    · simp [lookupFiles, ha, ih]

theorem lookup_none_of_any_false (files : List (String × String)) (p : String)
    (h : files.any (fun q => q.1 = p) = false) : lookupFiles files p = none := by
  induction files with
  | nil => rfl
  | cons a rest ih =>
    rw [List.any_cons] at h
    rcases Bool.or_eq_false_iff.mp h with ⟨h1, h2⟩
    have ha : ¬(a.1 = p) := by simpa using h1
    simp [lookupFiles, ha, ih h2]

theorem lookup_setFile_self (files : List (String × String)) (p c : String) :
    lookupFiles (setFile files p c) p = some c := by
  unfold setFile
  by_cases hany : files.any (fun q => q.1 = p)
  · rw [if_pos hany, lookup_map_update, if_pos hany]
  · have hf : files.any (fun q => q.1 = p) = false := Bool.eq_false_iff.mpr hany
    rw [if_neg hany, lookupFiles_append, lookup_none_of_any_false files p hf]
    simp [lookupFiles]

theorem lookup_setFile_other (files : List (String × String)) (p c q : String)
    (hq : q ≠ p) : lookupFiles (setFile files p c) q = lookupFiles files q := by
  unfold setFile
  by_cases hany : files.any (fun r => r.1 = p)
  · rw [if_pos hany]
    exact lookup_map_update_other files p c q hq
  · rw [if_neg hany, lookupFiles_append]
    cases hl : lookupFiles files q with
    | none => simp [lookupFiles, Ne.symm hq]
    | some v => simp

/-! ## Helper lemmas: path joining -/

theorem path_join_eq (a b : String) (hb : b.data.head? ≠ some '/')
    (ha : a.data ≠ []) (ha2 : a.data.getLast? ≠ some '/') :
    path_join a b = a ++ "/" ++ b := by
  have hcond : ¬(a.data = [] ∨ a.data.getLast? = some '/') := by
    rintro (h | h)
    exacts [ha h, ha2 h]
  unfold path_join
  rw [if_neg hb, if_neg hcond]

theorem path_join_getLast (a b : String) (hb : b.data ≠ []) :
    (path_join a b).data.getLast? = b.data.getLast? := by
  unfold path_join
  by_cases hh : b.data.head? = some '/'
  · rw [if_pos hh]
  · rw [if_neg hh]
    by_cases hc : a.data = [] ∨ a.data.getLast? = some '/'
    · rw [if_pos hc, String.data_append]
      exact List.getLast?_append_of_ne_nil _ hb
    · rw [if_neg hc, String.data_append]
      exact List.getLast?_append_of_ne_nil _ hb

theorem music_base_dir_getLast (cwd : String) :
    (music_base_dir cwd).data.getLast? = some 'y' := by
  unfold music_base_dir
  rw [path_join_getLast _ _ (by decide)]
  decide

theorem ne_nil_of_getLast_eq (l : List Char) (a : Char) (h : l.getLast? = some a) :
    l ≠ [] := by
  intro he
  rw [he] at h
  simp at h

/-! ## Claim theorems -/

/-- Claim C6 counterexample: the claimed `<libraryRoot>/...` shape fails
on a song whose catalog disc number begins with `/`: `cd_number` is never
sanitized, the final filename starts with `/`, and `os.path.join` then
returns it as an absolute path, discarding the library root — the result
is the bare filename `"/x-05-T.mp3"`, not a path of the claimed shape. -/
theorem archive_path_root_escaped :
    get_archive_path "/home/u" escapeSong sampleAlbum ".mp3" = "/x-05-T.mp3" ∧
    get_archive_path "/home/u" escapeSong sampleAlbum ".mp3" ≠
      music_base_dir "/home/u" ++ "/" ++ sanitize_filename sampleAlbum.artist.artist_name ++
        "/" ++ (album_year sampleAlbum ++ "-" ++
          sanitize_filename sampleAlbum.album_name) ++
        "/" ++ (cd_component escapeSong ++ "-" ++ track_component escapeSong ++ "-" ++
          sanitize_filename escapeSong.song_name ++ ".mp3") := by
  exact ⟨by decide, by decide⟩

/-- Claim C6 (amended): `get_archive_path` is deterministic (same inputs,
identical output); whenever its two unsanitized path components — the
disc-number string and the year-album segment, raw catalog data the
source never sanitizes — do not begin with a path separator, the output
has the shape
`<libraryRoot>/<sanitized artist>/<year-or-"Unknown">-<sanitized album>/
<disc|"01">-<track zero-padded to 2, or "00">-<sanitized title><ext>`,
where the year is derived from the album's millisecond publish timestamp
and `"Unknown"` is used when the timestamp is absent or unparsable.
(A disc number beginning with `/` makes `os.path.join` restart from it,
discarding the library root — see the counterexample.) -/
theorem compute_archive_path_shape (cwd : String) (song : NeteaseSong)
    (album : NeteaseAlbum) (ext : String)
    (h1 : (album_year album ++ "-" ++ sanitize_filename album.album_name).data.head? ≠
      some '/')
    (h2 : (cd_component song ++ "-" ++ track_component song ++ "-" ++
      sanitize_filename song.song_name ++ ext).data.head? ≠ some '/') :
    get_archive_path cwd song album ext = get_archive_path cwd song album ext ∧
    get_archive_path cwd song album ext =
      music_base_dir cwd ++ "/" ++ sanitize_filename album.artist.artist_name ++ "/" ++
        (album_year album ++ "-" ++ sanitize_filename album.album_name) ++ "/" ++
        (cd_component song ++ "-" ++ track_component song ++ "-" ++
          sanitize_filename song.song_name ++ ext) := by
  refine ⟨rfl, ?_⟩
  have hbase1 : (music_base_dir cwd).data ≠ [] :=
    ne_nil_of_getLast_eq _ _ (music_base_dir_getLast cwd)
  have hbase2 : (music_base_dir cwd).data.getLast? ≠ some '/' := by
    rw [music_base_dir_getLast]
    decide
  have hartist := sanitize_filename_head_ne_slash album.artist.artist_name
  have hA1 : (music_base_dir cwd ++ "/" ++
      sanitize_filename album.artist.artist_name).data ≠ [] := by
    rw [String.data_append]
    intro he
    exact sanitize_filename_ne_empty album.artist.artist_name (List.append_eq_nil.mp he).2
  have hA2 : (music_base_dir cwd ++ "/" ++
      sanitize_filename album.artist.artist_name).data.getLast? ≠ some '/' := by
    rw [String.data_append,
      List.getLast?_append_of_ne_nil _ (sanitize_filename_ne_empty album.artist.artist_name)]
    exact sanitize_filename_getLast_ne_slash album.artist.artist_name
  have hyne : (album_year album ++ "-" ++ sanitize_filename album.album_name).data ≠ [] := by
    rw [String.data_append]
    intro he
    exact sanitize_filename_ne_empty album.album_name (List.append_eq_nil.mp he).2
  have hB1 : (music_base_dir cwd ++ "/" ++ sanitize_filename album.artist.artist_name ++
      "/" ++ (album_year album ++ "-" ++ sanitize_filename album.album_name)).data ≠ [] := by
    rw [String.data_append]
    intro he
    exact hyne (List.append_eq_nil.mp he).2
  have hB2 : (music_base_dir cwd ++ "/" ++ sanitize_filename album.artist.artist_name ++
      "/" ++ (album_year album ++ "-" ++
        sanitize_filename album.album_name)).data.getLast? ≠ some '/' := by
    rw [String.data_append, List.getLast?_append_of_ne_nil _ hyne, String.data_append,
      List.getLast?_append_of_ne_nil _ (sanitize_filename_ne_empty album.album_name)]
    exact sanitize_filename_getLast_ne_slash album.album_name
  simp only [get_archive_path]
  rw [path_join_eq (music_base_dir cwd) (sanitize_filename album.artist.artist_name)
    hartist hbase1 hbase2]
  rw [path_join_eq _ _ h1 hA1 hA2]
  rw [path_join_eq _ _ h2 hB1 hB2]

/-- Claim C6 witness: the archive path of a concrete song/album. -/
theorem compute_archive_path_shape_witness :
    get_archive_path "/home/u" sampleSong sampleAlbum ".mp3" =
      get_archive_path "/home/u" sampleSong sampleAlbum ".mp3" ∧
    get_archive_path "/home/u" sampleSong sampleAlbum ".mp3" =
      music_base_dir "/home/u" ++ "/" ++ sanitize_filename sampleAlbum.artist.artist_name ++
        "/" ++ (album_year sampleAlbum ++ "-" ++
          sanitize_filename sampleAlbum.album_name) ++
        "/" ++ (cd_component sampleSong ++ "-" ++ track_component sampleSong ++ "-" ++
          sanitize_filename sampleSong.song_name ++ ".mp3") :=
  compute_archive_path_shape "/home/u" sampleSong sampleAlbum ".mp3"
    (by decide) (by decide)

/-- Claim C9: archiving creates the missing directory levels of the
destination and copies — does not move — the source: after a successful
archive the source file still holds its original content, the destination
holds a copy of it, and the destination's directory chain exists. -/
theorem archive_copies_not_moves (cwd : String) (fs : NeteaseFS) (song_path ext : String)
    (song : NeteaseSong) (album : NeteaseAlbum) (content : String)
    (h : lookupFile fs song_path = some content) :
    (archive_song_file cwd fs song_path ext song album).2 =
      some (get_archive_path cwd song album ext) ∧
    lookupFile (archive_song_file cwd fs song_path ext song album).1 song_path =
      some content ∧
    lookupFile (archive_song_file cwd fs song_path ext song album).1
      (get_archive_path cwd song album ext) = some content ∧
    (∀ d ∈ ancestorChain ((dirname (get_archive_path cwd song album ext)).length + 1)
        (dirname (get_archive_path cwd song album ext)),
      d ∈ (archive_song_file cwd fs song_path ext song album).1.dirs) := by
  have hne : ¬(lookupFile fs song_path = none) := by rw [h]; simp
  have hfs1 : lookupFile (makedirs fs (dirname (get_archive_path cwd song album ext)))
      song_path = some content := h
  have hcopy : copy2 (makedirs fs (dirname (get_archive_path cwd song album ext)))
      song_path (get_archive_path cwd song album ext) =
      ⟨setFile fs.files (get_archive_path cwd song album ext) content,
        (makedirs fs (dirname (get_archive_path cwd song album ext))).dirs⟩ := by
    unfold copy2
    rw [hfs1]
    rfl
  unfold archive_song_file
  rw [if_neg hne]
  refine ⟨rfl, ?_, ?_, ?_⟩
  · rw [hcopy]
    by_cases hpd : song_path = get_archive_path cwd song album ext
    · show lookupFiles (setFile fs.files (get_archive_path cwd song album ext) content)
        song_path = some content
      rw [hpd]
      exact lookup_setFile_self fs.files (get_archive_path cwd song album ext) content
    · show lookupFiles (setFile fs.files (get_archive_path cwd song album ext) content)
        song_path = some content
      rw [lookup_setFile_other fs.files (get_archive_path cwd song album ext) content
        song_path hpd]
      exact h
  · rw [hcopy]
    exact lookup_setFile_self fs.files (get_archive_path cwd song album ext) content
  · intro d hd
    rw [hcopy]
    show d ∈ (makedirs fs (dirname (get_archive_path cwd song album ext))).dirs
    unfold makedirs
    exact List.mem_append_left fs.dirs hd

/-- Claim C3: cookie parsing keeps exactly the `name=value` pairs whose
name is not one of the metadata keys Path, Max-Age, Expires, HTTPOnly,
Secure, compared case-sensitively; in particular
`"a=1; Path=/; b=2; Secure"` yields exactly `{a: "1", b: "2"}`, while a
lower-case `path` is kept. -/
theorem cookie_parse_exact :
    (∀ s : String, parse_cookies s = (parseCookiesAll s).filter nonMeta) ∧
    parse_cookies "a=1; Path=/; b=2; Secure" = [("a", "1"), ("b", "2")] ∧
    parse_cookies "a=1; path=/; b=2" = [("a", "1"), ("path", "/"), ("b", "2")] := by
  refine ⟨fun s => ?_, by decide, by decide⟩
  unfold parse_cookies parseCookiesAll
  by_cases hs : s = ""
  · simp [hs]
  · simp only [hs, if_false]
    have h := foldl_cookie_filter (splitChar ';' s.data) []
    simpa using h

/-- Claim C5 counterexample: sanitization strips whitespace before dots,
so input `"a ."` yields `"a "`, which ends in whitespace — the claimed
"no trailing whitespace" postcondition fails. -/
theorem sanitize_trailing_whitespace_kept :
    sanitize_filename "a ." = "a " ∧
    (sanitize_filename "a .").data.getLast? = some ' ' ∧
    Char.isWhitespace ' ' = true := by
  exact ⟨by decide, by decide, by decide⟩

/-- Claim C5 (amended): for every input string, sanitization replaces
every occurrence of the nine characters by underscores, yields no leading
or trailing dot, and is never empty; whitespace is trimmed before the dots
are, so whitespace uncovered by removing a dot can survive at the ends.
The particular input of the claim, `"AC/DC: Best?"`, yields
`"AC_DC_ Best_"`, which has no invalid characters and no leading/trailing
whitespace or dots. -/
theorem sanitize_filename_spec (s : String) :
    (∀ c ∈ (sanitize_filename s).data, c ∉ invalidChars) ∧
    (sanitize_filename s).data.head? ≠ some '.' ∧
    (sanitize_filename s).data.getLast? ≠ some '.' ∧
    sanitize_filename s ≠ "" ∧
    sanitize_filename "AC/DC: Best?" = "AC_DC_ Best_" ∧
    (sanitize_filename "AC/DC: Best?").data.head? = some 'A' ∧
    (sanitize_filename "AC/DC: Best?").data.getLast? = some '_' := by
  refine ⟨?_, ?_, ?_, ?_, by decide, by decide, by decide⟩
  · intro c hc
    rw [sanitize_filename_data] at hc
    exact mem_sanitizeChars_not_invalid s.data c hc
  · intro h
    rw [sanitize_filename_data] at h
    exact sanitizeChars_head_ne_dot s.data '.' h rfl
  · intro h
    rw [sanitize_filename_data] at h
    exact sanitizeChars_getLast_ne_dot s.data '.' h rfl
  · intro h
    have hdata : (sanitize_filename s).data = [] := by rw [h]
    exact sanitize_filename_ne_empty s hdata

/-- Claim C9 witness: archiving a concrete staged file into a concrete
library. -/
theorem archive_copies_not_moves_witness :
    (archive_song_file "/w" sampleFS "/tmp/song.mp3" ".mp3" sampleSong sampleAlbum).2 =
      some (get_archive_path "/w" sampleSong sampleAlbum ".mp3") ∧
    lookupFile (archive_song_file "/w" sampleFS "/tmp/song.mp3" ".mp3" sampleSong
      sampleAlbum).1 "/tmp/song.mp3" = some "DATA" ∧
    lookupFile (archive_song_file "/w" sampleFS "/tmp/song.mp3" ".mp3" sampleSong
      sampleAlbum).1 (get_archive_path "/w" sampleSong sampleAlbum ".mp3") = some "DATA" ∧
    (∀ d ∈ ancestorChain
        ((dirname (get_archive_path "/w" sampleSong sampleAlbum ".mp3")).length + 1)
        (dirname (get_archive_path "/w" sampleSong sampleAlbum ".mp3")),
      d ∈ (archive_song_file "/w" sampleFS "/tmp/song.mp3" ".mp3" sampleSong
        sampleAlbum).1.dirs) :=
  archive_copies_not_moves "/w" sampleFS "/tmp/song.mp3" ".mp3" sampleSong sampleAlbum
    "DATA" (by decide)

/-- Claim C1: for the QR login driver, the poll sequence
`[801, 801, 802, 803]` performs exactly one transition to the
authenticated state and exactly one cookie-parse invocation (on the 803
response's cookie string), after which login returns success; 801 and 802
cause no state change, and 800 is terminal with login failing. -/
theorem qr_login_loop_correct :
    (∀ c : Option String,
      loginRun [some ⟨some 801, none⟩, some ⟨some 801, none⟩, some ⟨some 802, none⟩,
          some ⟨some 803, c⟩] =
        ⟨LoginResult.success, [c], 1, some (parse_cookies_opt c)⟩) ∧
    (∀ (c : Option String) (rest : List (Option QRStatus)),
      loginRun (some ⟨some 800, c⟩ :: rest) = ⟨LoginResult.failure, [], 0, none⟩) ∧
    (∀ (c : Option String) (rest : List (Option QRStatus)),
      loginRun (some ⟨some 801, c⟩ :: rest) = loginRun rest ∧
      loginRun (some ⟨some 802, c⟩ :: rest) = loginRun rest) := by
  refine ⟨fun c => ?_, fun c rest => ?_, fun c rest => ⟨?_, ?_⟩⟩ <;> simp [loginRun]

/-- Claim C2 counterexample: a poll response with code 555 does not make
login fail; the loop keeps polling and a later 803 still succeeds, so the
run's result is success, not failure. -/
theorem qr_unknown_code_not_failure :
    (loginRun [some ⟨some 555, none⟩, some ⟨some 803, some "MUSIC_U=abc"⟩]).result =
      LoginResult.success ∧
    LoginResult.success ≠ LoginResult.failure := by
  constructor
  · rfl
  · decide

/-- Claim C2 (amended): a poll-status response whose code is neither 803
nor 800 (any other or missing code included) causes no state change and no
failure: the loop simply continues with the remaining polls.  The login
driver fails at the polling stage only when the status probe itself
returns `None`. -/
theorem qr_unknown_code_continues (s : QRStatus) (rest : List (Option QRStatus))
    (h803 : s.code ≠ some 803) (h800 : s.code ≠ some 800) :
    loginRun (some s :: rest) = loginRun rest ∧
    (∀ rest2 : List (Option QRStatus), loginRun (none :: rest2) =
      ⟨LoginResult.failure, [], 0, none⟩) := by
  constructor
  · simp [loginRun, h803, h800]
  · intro rest2
    rfl

/-- Claim C2 amended witness at code 555. -/
theorem qr_unknown_code_continues_witness :
    loginRun [some ⟨some 555, none⟩] = loginRun [] ∧
    (∀ rest2 : List (Option QRStatus), loginRun (none :: rest2) =
      ⟨LoginResult.failure, [], 0, none⟩) :=
  qr_unknown_code_continues ⟨some 555, none⟩ [] (by decide) (by decide)

/-- Claim C4: album parsing appends quality tiers in the fixed order
hires, lossless, exhigh, higher, standard, keeping exactly the tiers whose
flag is true; for hr/sq/m/l true and h false this gives
`[hires, lossless, higher, standard]`. -/
theorem quality_flags_ordered :
    (∀ sd : RawSong, (parse_song sd).avalibe_qualities = qualityOrder.filter (flagFor sd)) ∧
    (parse_song ⟨some 1, "t", none, none, true, true, false, true, true⟩).avalibe_qualities =
      [NeteaseAudioQuality.hires, NeteaseAudioQuality.lossless,
       NeteaseAudioQuality.higher, NeteaseAudioQuality.standard] := by
  constructor
  · intro sd
    rcases sd with ⟨id, name, cd, no, hr, sq, h, m, l⟩
    cases hr <;> cases sq <;> cases h <;> cases m <;> cases l <;> rfl
  · rfl

/-- Claim C7: when a file already exists at the computed archive path, the
track iteration performs neither download nor tagging nor archival, and
the reported success count still counts that track. -/
theorem archive_exists_skips_and_counts (env : TrackEnv) (di : NeteaseSongDownloadInfo)
    (hinfo : env.download_info = some di) (hurl : optStrFalsy di.url = false)
    (hexists : env.archive_file_exists = true) :
    process_track env = ([TrackAction.getUrl, TrackAction.checkExists], 1) ∧
    TrackAction.download ∉ (process_track env).1 ∧
    TrackAction.tag ∉ (process_track env).1 ∧
    TrackAction.archive ∉ (process_track env).1 ∧
    (∀ before after : List TrackEnv,
      process_album (before ++ env :: after) =
        process_album before + 1 + process_album after) := by
  have hpt : process_track env = ([TrackAction.getUrl, TrackAction.checkExists], 1) := by
    simp [process_track, hinfo, hurl, hexists]
  refine ⟨hpt, ?_, ?_, ?_, ?_⟩
  · rw [hpt]; decide
  · rw [hpt]; decide
  · rw [hpt]; decide
  · intro before after
    simp [process_album, hpt]
    omega

/-- Claim C7 witness: a concrete track environment with a valid URL and an
existing archive file. -/
theorem archive_exists_skips_and_counts_witness :
    process_track ⟨some ⟨1, ".mp3", some "http://u/x.mp3"⟩, true, none, false, none⟩ =
      ([TrackAction.getUrl, TrackAction.checkExists], 1) ∧
    TrackAction.download ∉ (process_track
      ⟨some ⟨1, ".mp3", some "http://u/x.mp3"⟩, true, none, false, none⟩).1 ∧
    TrackAction.tag ∉ (process_track
      ⟨some ⟨1, ".mp3", some "http://u/x.mp3"⟩, true, none, false, none⟩).1 ∧
    TrackAction.archive ∉ (process_track
      ⟨some ⟨1, ".mp3", some "http://u/x.mp3"⟩, true, none, false, none⟩).1 ∧
    (∀ before after : List TrackEnv,
      process_album (before ++ ⟨some ⟨1, ".mp3", some "http://u/x.mp3"⟩, true, none,
          false, none⟩ :: after) =
        process_album before + 1 + process_album after) :=
  archive_exists_skips_and_counts ⟨some ⟨1, ".mp3", some "http://u/x.mp3"⟩, true, none,
    false, none⟩ ⟨1, ".mp3", some "http://u/x.mp3"⟩ rfl (by decide) rfl

/-- Claim C8: a null download info, or one whose URL is falsy, makes the
download manager fail immediately with no directory creation, no network
request and no file write; and the album-loop caller skips such a track
without invoking the download manager at all. -/
theorem null_url_rejected (cwd : String) (info : Option NeteaseSongDownloadInfo)
    (resp : Option DLResponse)
    (hbad : info = none ∨ ∃ di, info = some di ∧ optStrFalsy di.url = true) :
    download_song_file cwd info resp = (none, []) ∧
    (∀ (env : TrackEnv) (di : NeteaseSongDownloadInfo),
      env.download_info = some di → optStrFalsy di.url = true →
      process_track env = ([TrackAction.getUrl], 0)) := by
  constructor
  · rcases hbad with h | ⟨di, hinfo, hfalsy⟩
    · rw [h]; rfl
    · rw [hinfo]; simp [download_song_file, hfalsy]
  · intro env di h1 h2
    simp [process_track, h1, h2]

/-- Claim C8 witness: a download info with a null URL. -/
theorem null_url_rejected_witness :
    download_song_file "/cwd" (some ⟨1, ".mp3", none⟩) none = (none, []) ∧
    (∀ (env : TrackEnv) (di : NeteaseSongDownloadInfo),
      env.download_info = some di → optStrFalsy di.url = true →
      process_track env = ([TrackAction.getUrl], 0)) :=
  null_url_rejected "/cwd" (some ⟨1, ".mp3", none⟩) none
    (Or.inr ⟨⟨1, ".mp3", none⟩, rfl, by decide⟩)

/-- Claim C10: `check_login_status` is total over every probe outcome and
returns true exactly for an HTTP 200 response whose account type
discriminator is 1; every non-200 status, missing or other account type,
and every caught exception yields false. -/
theorem check_login_status_total (p : LoginProbe) :
    check_login_status p = true ↔ p = LoginProbe.resp 200 (some 1) := by
  cases p with
  | raised => simp [check_login_status]
  | resp status ty =>
    by_cases hs : status = 200
    · subst hs
      simp [check_login_status]
    · simp [check_login_status, hs]

end GrabNetease
